import Mathlib

/-!
Verification of the ds-decomp section/symbol model.

The definitions below are a shallow embedding of the Rust sources:
* `lib/src/config/section.rs` — `Section`, `Sections` and their constructors;
* `src/config/symbol.rs` — `SymbolLookup::write_symbol`,
  `SymbolLookup::lookup_symbol_name`, `SymData::write_assembly`;
* `src/cmd/dis.rs` — `Disassemble::dump_bytes`.

Machine integers (`u32`) are represented as `Nat`; the only place where
wrap-around semantics matter (the `destination as i64 - addend` cast in
`write_symbol`) uses an explicit `% 2^32`.  Fallible Rust functions
returning `Result` become `Except`; functions writing to a `Write` sink
instead return the written `String`.
-/

/-- Section kind, from `lib/src/config/section.rs` (`SectionKind`). -/
inductive SectionKind where
  | code
  | data
  | bss
deriving DecidableEq

/-- A section, from `lib/src/config/section.rs` (`struct Section`). -/
structure Section where
  name : String
  kind : SectionKind
  start_address : Nat
  end_address : Nat
  alignment : Nat
deriving DecidableEq

/-- Errors of `Section::new`, from `enum SectionError`. -/
inductive SectionError where
  | endBeforeStart (name : String) (start_address end_address : Nat)
  | alignmentPowerOfTwo (name : String) (alignment : Nat)
  | misalignedStart (name : String) (start_address alignment : Nat)
deriving DecidableEq

/-- Rust `u32::is_power_of_two` (true exactly when the value is `2^k`;
a `u32` power of two always has exponent below 32). -/
def u32_is_power_of_two (n : Nat) : Bool :=
  (List.range 32).any (fun k => n == 2 ^ k)

/-- `Section::new` from `lib/src/config/section.rs`: validates
`end ≥ start`, power-of-two alignment, and `start & (alignment-1) == 0`,
in that order. -/
def Section.new (name : String) (kind : SectionKind)
    (start_address end_address alignment : Nat) : Except SectionError Section :=
  if end_address < start_address then
    .error (.endBeforeStart name start_address end_address)
  else if !u32_is_power_of_two alignment then
    .error (.alignmentPowerOfTwo name alignment)
  else
    let misalign_mask := alignment - 1
    if start_address &&& misalign_mask != 0 then
      .error (.misalignedStart name start_address alignment)
    else
      .ok { name, kind, start_address, end_address, alignment }

/-- `Section::size`. -/
def Section.size (s : Section) : Nat :=
  s.end_address - s.start_address

/-- `Section::inherit`: clone name, kind and alignment from `other`,
take `start`/`end` from the arguments, revalidating via `Section::new`. -/
def Section.inherit (other : Section) (start_address end_address : Nat) :
    Except SectionError Section :=
  Section.new other.name other.kind start_address end_address other.alignment

/-- `Section::overlaps_with`. -/
def Section.overlaps_with (s other : Section) : Bool :=
  s.start_address < other.end_address && other.start_address < s.end_address

/-- Errors of `Sections::add`, from `enum SectionsError`. -/
inductive SectionsError where
  | duplicateName (name : String)
  | overlapping (name other_name : String)
deriving DecidableEq

/-- The `Sections` collection: insertion-ordered vector plus a
name-to-index map (the `HashMap` is modelled as an association list;
only `contains_key`, `insert` and `get` are used). -/
structure Sections where
  sections : List Section
  sections_by_name : List (String × Nat)
deriving DecidableEq

/-- `Sections::new`. -/
def Sections.new : Sections :=
  { sections := [], sections_by_name := [] }

/-- `Sections::add`.  The Rust method mutates `&mut self` and returns
`Result<SectionIndex, SectionsError>`; here the post-state is returned
alongside the result (error paths return before any mutation, so they
pair the error with the unchanged state). -/
def Sections.add (self : Sections) (sec : Section) :
    Except SectionsError Nat × Sections :=
  if (self.sections_by_name.lookup sec.name).isSome then
    (.error (.duplicateName sec.name), self)
  else
    match self.sections.find? (fun other => sec.overlaps_with other) with
    | some other => (.error (.overlapping sec.name other.name), self)
    | none =>
      let index := self.sections.length
      (.ok index,
       { sections := self.sections ++ [sec],
         sections_by_name := self.sections_by_name ++ [(sec.name, index)] })

/-- `Sections::len`. -/
def Sections.len (self : Sections) : Nat :=
  self.sections.length

/-- `Sections::by_name` (the vector index stored in the map is always in
range for states produced by `add`). -/
def Sections.by_name (self : Sections) (name : String) : Option (Nat × Section) :=
  match self.sections_by_name.lookup name with
  | some index =>
    match self.sections[index]? with
    | some s => some (index, s)
    | none => none
  | none => none

/-- Helper for `Sections::get_by_contained_address`: first section (with
its index) whose `[start, end)` range contains the address. -/
def sectionsFindContained : List Section → Nat → Nat → Option (Nat × Section)
  | [], _, _ => none
  | s :: rest, idx, address =>
    if address ≥ s.start_address && address < s.end_address then
      some (idx, s)
    else
      sectionsFindContained rest (idx + 1) address

/-- `Sections::get_by_contained_address`. -/
def Sections.get_by_contained_address (self : Sections) (address : Nat) :
    Option (Nat × Section) :=
  sectionsFindContained self.sections 0 address

/-- States reachable from `Sections::new` through successful `add` calls. -/
inductive SectionsBuilt : Sections → Prop where
  | nil : SectionsBuilt Sections.new
  | step (ss : Sections) (sec : Section) (i : Nat) :
      SectionsBuilt ss → (ss.add sec).1 = .ok i → SectionsBuilt (ss.add sec).2

/-- Concrete sections for the overlap example of the spec. -/
def overlapSectionA : Section :=
  { name := ".first", kind := .code, start_address := 0, end_address := 0x100, alignment := 1 }

/-- Second concrete section, overlapping `overlapSectionA` at `0xFF`. -/
def overlapSectionB : Section :=
  { name := ".second", kind := .code, start_address := 0xFF, end_address := 0x200, alignment := 1 }

/-- A one-element collection holding `overlapSectionA`. -/
def sectionsOne : Sections :=
  (Sections.new.add overlapSectionA).2

/-- Disjoint concrete sections used to exercise address containment. -/
def containSectionA : Section :=
  { name := ".text", kind := .code, start_address := 0, end_address := 0x100, alignment := 4 }

/-- Second disjoint concrete section. -/
def containSectionB : Section :=
  { name := ".data", kind := .data, start_address := 0x100, end_address := 0x200, alignment := 4 }

/-- A two-element collection built by successful `add` calls. -/
def sectionsTwo : Sections :=
  ((Sections.new.add containSectionA).2.add containSectionB).2

-- ## Helper lemmas

deriving instance DecidableEq for Except

theorem u32_is_power_of_two_iff {n : Nat} (hn : n < 2 ^ 32) :
    u32_is_power_of_two n = true ↔ ∃ k, n = 2 ^ k := by
  unfold u32_is_power_of_two
  rw [List.any_eq_true]
  constructor
  · rintro ⟨k, _, hk⟩
    exact ⟨k, by simpa using hk⟩
  · rintro ⟨k, rfl⟩
    refine ⟨k, List.mem_range.mpr ?_, by simp⟩
    exact (Nat.pow_lt_pow_iff_right (by norm_num)).mp hn

theorem u32_is_power_of_two_pos {n : Nat} (h : u32_is_power_of_two n = true) :
    1 ≤ n := by
  unfold u32_is_power_of_two at h
  rw [List.any_eq_true] at h
  obtain ⟨k, _, hk⟩ := h
  have : n = 2 ^ k := by simpa using hk
  subst this
  exact Nat.one_le_two_pow

theorem mask_eq_mod {x a : Nat} (h : ∃ k, a = 2 ^ k) :
    x &&& (a - 1) = x % a := by
  obtain ⟨k, rfl⟩ := h
  exact Nat.and_pow_two_sub_one_eq_mod x k

theorem overlaps_with_comm (a b : Section) :
    a.overlaps_with b = b.overlaps_with a := by
  simp only [Section.overlaps_with]
  exact Bool.and_comm _ _

-- ## C4: Section::new error conditions and success

/-- C4: `Section::new(name, kind, start, end, align)` fails with
`EndBeforeStart` when `end < start`, with `AlignmentPowerOfTwo` when
`align` is not a power of two, and with `MisalignedStart` when `start`
is not a multiple of `align`; for every input satisfying all three
conditions it succeeds and the resulting section has
`size() = end - start` (checks applied in the listed priority order). -/
theorem section_new_characterization (name : String) (kind : SectionKind)
    (start_address end_address alignment : Nat) (halign : alignment < 2 ^ 32) :
    (end_address < start_address →
      Section.new name kind start_address end_address alignment =
        .error (.endBeforeStart name start_address end_address)) ∧
    (start_address ≤ end_address → (¬∃ k, alignment = 2 ^ k) →
      Section.new name kind start_address end_address alignment =
        .error (.alignmentPowerOfTwo name alignment)) ∧
    (start_address ≤ end_address → (∃ k, alignment = 2 ^ k) →
      start_address % alignment ≠ 0 →
      Section.new name kind start_address end_address alignment =
        .error (.misalignedStart name start_address alignment)) ∧
    (start_address ≤ end_address → (∃ k, alignment = 2 ^ k) →
      start_address % alignment = 0 →
      ∃ s, Section.new name kind start_address end_address alignment = .ok s ∧
        s.size = end_address - start_address ∧ s.name = name ∧ s.kind = kind ∧
        s.start_address = start_address ∧ s.end_address = end_address ∧
        s.alignment = alignment) := by
  refine ⟨?_, ?_, ?_, ?_⟩
  · intro h
    simp [Section.new, h]
  · intro hle hpow
    have h1 : ¬ end_address < start_address := Nat.not_lt.mpr hle
    have h2 : u32_is_power_of_two alignment = false := by
      rw [← Bool.not_eq_true, u32_is_power_of_two_iff halign]
      exact hpow
    simp [Section.new, h1, h2]
  · intro hle hpow hmod
    have h1 : ¬ end_address < start_address := Nat.not_lt.mpr hle
    have h2 : u32_is_power_of_two alignment = true :=
      (u32_is_power_of_two_iff halign).mpr hpow
    have h3 : start_address &&& (alignment - 1) ≠ 0 := by
      rw [mask_eq_mod hpow]
      exact hmod
    simp [Section.new, h1, h2, h3]
  · intro hle hpow hmod
    have h1 : ¬ end_address < start_address := Nat.not_lt.mpr hle
    have h2 : u32_is_power_of_two alignment = true :=
      (u32_is_power_of_two_iff halign).mpr hpow
    have h3 : start_address &&& (alignment - 1) = 0 := by
      rw [mask_eq_mod hpow]
      exact hmod
    refine ⟨⟨name, kind, start_address, end_address, alignment⟩,
      ?_, rfl, rfl, rfl, rfl, rfl, rfl⟩
    simp [Section.new, h1, h2, h3]

/-- Witness for C4: the success case at a concrete valid input. -/
theorem section_new_characterization_witness :
    ∃ s, Section.new ".text" .code 4 8 4 = .ok s ∧
      s.size = 8 - 4 ∧ s.name = ".text" ∧ s.kind = .code ∧
      s.start_address = 4 ∧ s.end_address = 8 ∧ s.alignment = 4 :=
  (section_new_characterization ".text" .code 4 8 4 (by norm_num)).2.2.2
    (by norm_num) ⟨2, rfl⟩ (by norm_num)

-- ## C10: Section::new with alignment 0

/-- Counterexample for C10: with alignment 0 but `end < start`,
`Section::new` fails with `EndBeforeStart`, not `AlignmentPowerOfTwo`. -/
theorem section_new_align_zero_counterexample :
    Section.new "a" .code 5 3 0 = .error (.endBeforeStart "a" 5 3) ∧
    Section.new "a" .code 5 3 0 ≠ .error (.alignmentPowerOfTwo "a" 0) := by
  constructor
  · rfl
  · decide

/-- C10 (amended): `Section::new` with alignment 0 fails with
`AlignmentPowerOfTwo` whenever `start ≤ end` (when `end < start` the
earlier `EndBeforeStart` check fires instead); it never succeeds; and the
power-of-two check guarantees a positive alignment on the path where the
`alignment - 1` mask is computed, so the mask is never computed from a
zero alignment. -/
theorem section_new_align_zero (name : String) (kind : SectionKind)
    (start_address end_address : Nat) :
    (start_address ≤ end_address →
      Section.new name kind start_address end_address 0 =
        .error (.alignmentPowerOfTwo name 0)) ∧
    (∀ s, Section.new name kind start_address end_address 0 ≠ .ok s) ∧
    (∀ a, u32_is_power_of_two a = true → 1 ≤ a) := by
  have hzero : u32_is_power_of_two 0 = false := by decide
  refine ⟨?_, ?_, fun a ha => u32_is_power_of_two_pos ha⟩
  · intro hle
    have h1 : ¬ end_address < start_address := Nat.not_lt.mpr hle
    simp [Section.new, h1, hzero]
  · intro s hs
    by_cases h1 : end_address < start_address
    · simp [Section.new, h1] at hs
    · simp [Section.new, h1, hzero] at hs

/-- Witness for C10: alignment 0 with `start ≤ end` yields
`AlignmentPowerOfTwo`. -/
theorem section_new_align_zero_witness :
    Section.new "b" .data 0 4 0 = .error (.alignmentPowerOfTwo "b" 0) :=
  (section_new_align_zero "b" .data 0 4).1 (by norm_num)

-- ## C5: Sections::add rejections

/-- C5: `Sections::add` rejects a section whose name is already present
(`DuplicateName`) and, for a fresh name, any section overlapping an
existing one under the criterion `a.start < b.end ∧ b.start < a.end`
(`Overlapping`); adding `[0x0,0x100)` then `[0xFF,0x200)` fails with
`Overlapping`. -/
theorem sections_add_rejects (ss : Sections) (sec : Section) :
    ((ss.sections_by_name.lookup sec.name).isSome →
      (ss.add sec).1 = .error (.duplicateName sec.name)) ∧
    (ss.sections_by_name.lookup sec.name = none →
      (∃ other ∈ ss.sections,
        sec.start_address < other.end_address ∧
        other.start_address < sec.end_address) →
      ∃ other ∈ ss.sections, sec.overlaps_with other = true ∧
        (ss.add sec).1 = .error (.overlapping sec.name other.name)) ∧
    ((sectionsOne.add overlapSectionB).1 =
      .error (.overlapping ".second" ".first")) := by
  refine ⟨?_, ?_, by decide⟩
  · intro h
    simp [Sections.add, h]
  · intro hname hov
    have hdup : (ss.sections_by_name.lookup sec.name).isSome = false := by
      simp [hname]
    have hsome : (ss.sections.find? (fun other => sec.overlaps_with other)).isSome := by
      rw [List.find?_isSome]
      obtain ⟨other, hmem, h1, h2⟩ := hov
      exact ⟨other, hmem, by simp [Section.overlaps_with, h1, h2]⟩
    obtain ⟨other, hfind⟩ := Option.isSome_iff_exists.mp hsome
    refine ⟨other, List.mem_of_find?_eq_some hfind, List.find?_some hfind, ?_⟩
    simp [Sections.add, hdup, hfind]

/-- Witness for C5: re-adding a section with an existing name fails with
`DuplicateName`, and the overlap example fails with `Overlapping`. -/
theorem sections_add_rejects_witness :
    (sectionsOne.add overlapSectionA).1 = .error (.duplicateName ".first") :=
  (sections_add_rejects sectionsOne overlapSectionA).1 (by decide)

-- ## C9: Sections::add is atomic on error

/-- C9: whenever `Sections::add` returns an error, the collection is
unchanged: the section vector, the name index and `len()` keep their
previous values. -/
theorem sections_add_atomic (ss : Sections) (sec : Section) (e : SectionsError)
    (h : (ss.add sec).1 = .error e) :
    (ss.add sec).2 = ss ∧ (ss.add sec).2.sections = ss.sections ∧
    (ss.add sec).2.sections_by_name = ss.sections_by_name ∧
    (ss.add sec).2.len = ss.len := by
  by_cases hdup : (ss.sections_by_name.lookup sec.name).isSome
  · simp [Sections.add, hdup]
  · rcases hfind : ss.sections.find? (fun other => sec.overlaps_with other) with _ | other
    · exfalso
      simp [Sections.add, hdup, hfind] at h
    · simp [Sections.add, hdup, hfind]

/-- Witness for C9: the duplicate-name error leaves the concrete
one-section collection untouched. -/
theorem sections_add_atomic_witness :
    (sectionsOne.add overlapSectionA).2 = sectionsOne ∧
    (sectionsOne.add overlapSectionA).2.sections = sectionsOne.sections ∧
    (sectionsOne.add overlapSectionA).2.sections_by_name = sectionsOne.sections_by_name ∧
    (sectionsOne.add overlapSectionA).2.len = sectionsOne.len :=
  sections_add_atomic sectionsOne overlapSectionA (.duplicateName ".first") (by decide)

-- ## C6: get_by_contained_address on collections built by add

theorem sections_built_disjoint {ss : Sections} (h : SectionsBuilt ss) :
    ss.sections.Pairwise (fun a b => a.overlaps_with b = false) := by
  induction h with
  | nil => simp [Sections.new]
  | step ss sec i _ hok ih =>
    by_cases hdup : (ss.sections_by_name.lookup sec.name).isSome
    · simp [Sections.add, hdup] at hok
    · rcases hfind : ss.sections.find? (fun other => sec.overlaps_with other) with _ | other
      · have hall : ∀ o ∈ ss.sections, sec.overlaps_with o = false := by
          intro o ho
          have := List.find?_eq_none.mp hfind o ho
          simpa using this
        have hsections : (ss.add sec).2.sections = ss.sections ++ [sec] := by
          simp [Sections.add, hdup, hfind]
        rw [hsections, List.pairwise_append]
        refine ⟨ih, List.pairwise_singleton _ _, ?_⟩
        intro a ha b hb
        rw [List.mem_singleton] at hb
        subst hb
        rw [overlaps_with_comm]
        exact hall a ha
      · simp [Sections.add, hdup, hfind] at hok

theorem sectionsFindContained_spec (l : List Section) (idx : Nat) (a : Nat)
    (hdisj : l.Pairwise (fun x y => x.overlaps_with y = false)) :
    ∀ i s, l[i]? = some s → s.start_address ≤ a → a < s.end_address →
      sectionsFindContained l idx a = some (idx + i, s) := by
  induction l generalizing idx with
  | nil => intro i s hget; simp at hget
  | cons hd tl ih =>
    intro i s hget h1 h2
    match i with
    | 0 =>
      simp only [List.getElem?_cons_zero, Option.some.injEq] at hget
      subst hget
      simp [sectionsFindContained, h1, h2]
    | Nat.succ j =>
      simp only [List.getElem?_cons_succ] at hget
      have hmem : s ∈ tl := by
        exact List.getElem?_mem hget
      have hrel : hd.overlaps_with s = false := (List.pairwise_cons.mp hdisj).1 s hmem
      have hhd : ¬(hd.start_address ≤ a ∧ a < hd.end_address) := by
        rintro ⟨g1, g2⟩
        have : hd.overlaps_with s = true := by
          simp only [Section.overlaps_with, Bool.and_eq_true, decide_eq_true_eq]
          exact ⟨Nat.lt_of_le_of_lt g1 h2, Nat.lt_of_le_of_lt h1 g2⟩
        rw [hrel] at this
        exact Bool.false_ne_true this
      have hcond : (decide (a ≥ hd.start_address) && decide (a < hd.end_address)) = false := by
        rcases Nat.lt_or_ge a hd.start_address with hlt | hge
        · simp [Nat.not_le.mpr hlt]
        · have : ¬ a < hd.end_address := fun hcontra => hhd ⟨hge, hcontra⟩
          simp [this]
      rw [show idx + Nat.succ j = (idx + 1) + j from by omega]
      rw [sectionsFindContained, hcond]
      simp only [Bool.false_eq_true, if_false]
      exact ih (idx + 1) ((List.pairwise_cons.mp hdisj).2) j s hget h1 h2

/-- C6: for every `Sections` collection built entirely through successful
`add` calls, every section `s` in it, and every address `a` with
`s.start ≤ a < s.end`, `get_by_contained_address(a)` returns `s` together
with its index (the non-overlap invariant makes the first match unique). -/
theorem sections_get_by_contained_address (ss : Sections)
    (hb : SectionsBuilt ss) (i : Nat) (s : Section) (a : Nat)
    (hget : ss.sections[i]? = some s)
    (h1 : s.start_address ≤ a) (h2 : a < s.end_address) :
    ss.get_by_contained_address a = some (i, s) := by
  have hdisj := sections_built_disjoint hb
  have := sectionsFindContained_spec ss.sections 0 a hdisj i s hget h1 h2
  simpa [Sections.get_by_contained_address] using this

/-- Witness for C6: in the concrete two-section collection, address
`0x180` resolves to the second section. -/
theorem sections_get_by_contained_address_witness :
    sectionsTwo.get_by_contained_address 0x180 = some (1, containSectionB) := by
  have hb : SectionsBuilt sectionsTwo := by
    have h0 : SectionsBuilt (Sections.new.add containSectionA).2 :=
      SectionsBuilt.step Sections.new containSectionA 0 SectionsBuilt.nil (by decide)
    exact SectionsBuilt.step (Sections.new.add containSectionA).2 containSectionB 1 h0 (by decide)
  exact sections_get_by_contained_address sectionsTwo hb 1 containSectionB 0x180
    (by decide) (by decide) (by decide)

-- ## C8: Disassemble::dump_bytes

/-- Lowercase hex digits of a natural number, as printed by Rust `{:x}`. -/
def hexDigitsOf (n : Nat) : List Char :=
  Nat.toDigits 16 n

/-- Rust `{:#x}` formatting. -/
def hexLiteral (n : Nat) : String :=
  "0x" ++ String.mk (hexDigitsOf n)

/-- Rust `0x{:02x}` formatting (two-digit zero-padded byte). -/
def hexByte (n : Nat) : String :=
  "0x" ++ String.mk (List.replicate (2 - (hexDigitsOf n).length) '0' ++ hexDigitsOf n)

/-- `Disassemble::dump_bytes` from `src/cmd/dis.rs`, value level: the
byte values of each emitted `.byte` line, in order.  Each loop iteration
prints `min 16 (end_offset - offset)` consecutive bytes starting at
`offset` and advances `offset` by that amount. -/
def dumpBytes (code : List Nat) (offset end_offset : Nat) : List (List Nat) :=
  if offset < end_offset then
    ((code.drop offset).take (min 16 (end_offset - offset))) ::
      dumpBytes code (offset + min 16 (end_offset - offset)) end_offset
  else []
termination_by end_offset - offset
decreasing_by omega

/-- `Disassemble::dump_bytes`, text level: the emitted lines. -/
def dumpBytesLines (code : List Nat) (offset end_offset : Nat) : List String :=
  (dumpBytes code offset end_offset).map
    (fun chunk => "    .byte " ++ String.intercalate ", " (chunk.map hexByte))

theorem dumpBytes_nil (code : List Nat) (offset end_offset : Nat)
    (h : ¬ offset < end_offset) : dumpBytes code offset end_offset = [] := by
  rw [dumpBytes, if_neg h]

theorem dumpBytes_join (code : List Nat) (offset end_offset : Nat) :
    (dumpBytes code offset end_offset).flatten =
      (code.drop offset).take (end_offset - offset) := by
  induction offset, end_offset using dumpBytes.induct code with
  | case1 offset end_offset h ih =>
    rw [dumpBytes, if_pos h, List.flatten_cons, ih]
    set m := 16 ⊓ (end_offset - offset) with hm
    rw [show end_offset - offset = m + (end_offset - (offset + m)) from by omega,
      List.take_add]
    congr 1
    rw [List.drop_drop]
  | case2 offset end_offset h =>
    rw [dumpBytes, if_neg h]
    have : end_offset - offset = 0 := by omega
    rw [this]
    simp

theorem dumpBytes_chunk_lengths (code : List Nat) (offset end_offset : Nat)
    (hlen : end_offset ≤ code.length) :
    ∀ chunk ∈ dumpBytes code offset end_offset,
      1 ≤ chunk.length ∧ chunk.length ≤ 16 := by
  induction offset, end_offset using dumpBytes.induct code with
  | case1 offset end_offset h ih =>
    intro chunk hmem
    rw [dumpBytes, if_pos h] at hmem
    rcases List.mem_cons.mp hmem with hc | hc
    · subst hc
      rw [List.length_take, List.length_drop]
      omega
    · exact ih hlen chunk hc
  | case2 offset end_offset h =>
    intro chunk hmem
    rw [dumpBytes_nil code offset end_offset h] at hmem
    simp at hmem

theorem dumpBytes_full_lines (code : List Nat) (offset end_offset : Nat)
    (hlen : end_offset ≤ code.length) :
    ∀ chunk ∈ (dumpBytes code offset end_offset).dropLast,
      chunk.length = 16 := by
  induction offset, end_offset using dumpBytes.induct code with
  | case1 offset end_offset h ih =>
    intro chunk hmem
    rw [dumpBytes, if_pos h] at hmem
    rcases hrest : dumpBytes code (offset + min 16 (end_offset - offset)) end_offset with _ | ⟨r, rs⟩
    · rw [hrest] at hmem
      simp at hmem
    · rw [hrest, List.dropLast_cons_of_ne_nil (by simp)] at hmem
      have hnext : offset + min 16 (end_offset - offset) < end_offset := by
        by_contra hcon
        rw [dumpBytes_nil code _ end_offset hcon] at hrest
        exact List.noConfusion hrest
      rcases List.mem_cons.mp hmem with hc | hc
      · subst hc
        rw [List.length_take, List.length_drop]
        omega
      · rw [← hrest] at hc
        exact ih hlen chunk hc
  | case2 offset end_offset h =>
    intro chunk hmem
    rw [dumpBytes_nil code offset end_offset h] at hmem
    simp at hmem

/-- C8: for every byte slice and every `offset < end_offset` within it,
`Disassemble::dump_bytes` emits `.byte` lines carrying at most 16
comma-separated values each (and at least one), only the last line
possibly shorter, and the concatenation of the emitted byte values is
exactly `code[offset..end_offset]` in order. -/
theorem dump_bytes_round_trip (code : List Nat) (offset end_offset : Nat)
    (h1 : offset < end_offset) (h2 : end_offset ≤ code.length) :
    (∀ chunk ∈ dumpBytes code offset end_offset,
      1 ≤ chunk.length ∧ chunk.length ≤ 16) ∧
    (∀ chunk ∈ (dumpBytes code offset end_offset).dropLast,
      chunk.length = 16) ∧
    (dumpBytes code offset end_offset).flatten =
      (code.drop offset).take (end_offset - offset) ∧
    dumpBytesLines code offset end_offset =
      (dumpBytes code offset end_offset).map
        (fun chunk => "    .byte " ++ String.intercalate ", " (chunk.map hexByte)) :=
  ⟨dumpBytes_chunk_lengths code offset end_offset h2,
   dumpBytes_full_lines code offset end_offset h2,
   dumpBytes_join code offset end_offset, rfl⟩

/-- Witness for C8 at a concrete 18-byte slice dumped from offset 1. -/
theorem dump_bytes_round_trip_witness :
    (∀ chunk ∈ dumpBytes [0, 1, 2, 3, 4, 5, 6, 7, 8, 9, 10, 11, 12, 13, 14, 15, 16, 17] 1 18,
      1 ≤ chunk.length ∧ chunk.length ≤ 16) ∧
    (∀ chunk ∈ (dumpBytes [0, 1, 2, 3, 4, 5, 6, 7, 8, 9, 10, 11, 12, 13, 14, 15, 16, 17] 1 18).dropLast,
      chunk.length = 16) ∧
    (dumpBytes [0, 1, 2, 3, 4, 5, 6, 7, 8, 9, 10, 11, 12, 13, 14, 15, 16, 17] 1 18).flatten =
      (List.drop 1 [0, 1, 2, 3, 4, 5, 6, 7, 8, 9, 10, 11, 12, 13, 14, 15, 16, 17]).take (18 - 1) ∧
    dumpBytesLines [0, 1, 2, 3, 4, 5, 6, 7, 8, 9, 10, 11, 12, 13, 14, 15, 16, 17] 1 18 =
      (dumpBytes [0, 1, 2, 3, 4, 5, 6, 7, 8, 9, 10, 11, 12, 13, 14, 15, 16, 17] 1 18).map
        (fun chunk => "    .byte " ++ String.intercalate ", " (chunk.map hexByte)) :=
  dump_bytes_round_trip [0, 1, 2, 3, 4, 5, 6, 7, 8, 9, 10, 11, 12, 13, 14, 15, 16, 17] 1 18
    (by norm_num) (by norm_num)

-- ## Symbol model (types from the `ds_decomp_config` lib, which is not
-- under `src/`; functions from `src/config/symbol.rs`)

/-- Modelled from the spec: autoload kinds (`ITCM`/`DTCM`) of the module
model; `module.rs` of the config lib is not under `src/`. -/
inductive AutoloadKind where
  | itcm
  | dtcm
deriving DecidableEq

/-- Modelled from the spec: module kinds `ARM9 | Autoload | Overlay(id)`;
`module.rs` of the config lib is not under `src/`. -/
inductive ModuleKind where
  | arm9
  | autoload (kind : AutoloadKind)
  | overlay (id : Nat)
deriving DecidableEq

/-- Modelled from the spec: instruction modes `arm | thumb` of function
and label symbols; `symbol.rs` of the config lib is not under `src/`. -/
inductive InstructionMode where
  | arm
  | thumb
deriving DecidableEq

/-- Modelled from the spec: data-symbol variant `any|byte|short|word`
with optional size in bytes; `symbol.rs` of the config lib is not under
`src/`. -/
inductive SymData where
  | any
  | byte (size : Option Nat)
  | short (size : Option Nat)
  | word (size : Option Nat)
deriving DecidableEq

/-- Modelled from the spec: `SymData::size` (the optional declared byte
size; `any` carries none). -/
def SymData.size : SymData → Option Nat
  | .any => Option.none
  | .byte size => size
  | .short size => size
  | .word size => size

/-- Modelled from the spec: `SymData::element_size` — 1/2/4 for
byte/short/word, 1 for `any`. -/
def SymData.element_size : SymData → Nat
  | .any => 1
  | .byte _ => 1
  | .short _ => 2
  | .word _ => 4

/-- Modelled from the spec: the tagged symbol kind; `symbol.rs` of the
config lib is not under `src/`. -/
inductive SymbolKind where
  | function (mode : InstructionMode) (size : Nat) (unknown : Bool)
  | label (mode : InstructionMode)
  | poolConstant
  | jumpTable (size : Nat) (code : Bool)
  | data (data : SymData)
  | bss (size : Option Nat)
deriving DecidableEq

/-- Modelled from the spec: a symbol (name, address, kind, ambiguous
flag) — Rust `Symbol`, renamed as the Rust name is taken in Lean; `symbol.rs` of the
config lib is not under `src/`. -/
structure DsSymbol where
  name : String
  addr : Nat
  kind : SymbolKind
  ambiguous : Bool
deriving DecidableEq

/-- Modelled from the spec: a per-module symbol map, iterated in address
order (represented as the address-ordered symbol list). -/
abbrev SymbolMap := List DsSymbol

/-- Modelled from the spec: `SymbolMap::by_address` — exact-address
lookup (the Rust version returns `Result<Option<..>>`; its error case,
multiple symbols at one address, is not exercised by the claims and the
lookup is modelled as total). -/
def SymbolMap.by_address (m : SymbolMap) (address : Nat) : Option DsSymbol :=
  m.find? (fun s => s.addr == address)

/-- Modelled from the spec: `SymbolMap::get_function` — the function
symbol whose `[addr, addr+size)` range covers the query address. -/
def SymbolMap.get_function (m : SymbolMap) (address : Nat) : Option DsSymbol :=
  m.find? (fun s =>
    match s.kind with
    | .function _ size _ => s.addr ≤ address && address < s.addr + size
    | _ => false)

/-- Modelled from the spec: the registry of all modules' symbol maps
(`SymbolMaps`), keyed by module kind. -/
abbrev SymbolMaps := List (ModuleKind × SymbolMap)

/-- Modelled from the spec: `SymbolMaps::get`. -/
def SymbolMaps.get (maps : SymbolMaps) (kind : ModuleKind) : Option SymbolMap :=
  (maps.find? (fun p => p.1 == kind)).map (fun p => p.2)

/-- Modelled from the spec: the relocation target-module descriptor
(`relocation.rs` of the config lib is not under `src/`): either no
module (a pure same-module reference), a single definite module, or
candidate modules of which the first is canonical. -/
inductive RelocationModule where
  | none
  | single (kind : ModuleKind)
  | multiple (first : ModuleKind) (others : List ModuleKind)
deriving DecidableEq

/-- Modelled from the spec: `first_module()` — the canonical choice. -/
def RelocationModule.first_module : RelocationModule → Option ModuleKind
  | .none => Option.none
  | .single kind => some kind
  | .multiple first _ => some first

/-- Modelled from the spec: `other_modules()` — the remaining
candidates, for commentary. -/
def RelocationModule.other_modules : RelocationModule → Option (List ModuleKind)
  | .none => Option.none
  | .single _ => Option.none
  | .multiple _ others => some others

/-- Modelled from the spec: a relocation record (destination address,
signed addend, target-module descriptor); `relocation.rs` of the config
lib is not under `src/`. -/
structure Relocation where
  to_address : Nat
  addend : Int
  module : RelocationModule
deriving DecidableEq

/-- Modelled from the spec: the per-module relocation table, keyed by
source address. -/
abbrev Relocations := List (Nat × Relocation)

/-- Modelled from the spec: `Relocations::get` by exact source address. -/
def Relocations.get (r : Relocations) (source : Nat) : Option Relocation :=
  (r.find? (fun p => p.1 == source)).map (fun p => p.2)

/-- Modelled from the spec: `u32::from_le_slice` — little-endian 32-bit
read of the first four bytes (`util/bytes.rs` is not under `src/`). -/
def u32_from_le_slice (bytes : List Nat) : Nat :=
  bytes.getD 0 0 + 256 * bytes.getD 1 0 + 65536 * bytes.getD 2 0 +
    16777216 * bytes.getD 3 0

/-- Modelled from the spec: `u16::from_le_slice` — little-endian 16-bit
read of the first two bytes. -/
def u16_from_le_slice (bytes : List Nat) : Nat :=
  bytes.getD 0 0 + 256 * bytes.getD 1 0

/-- `SymbolLookup` from `src/config/symbol.rs`. -/
structure SymbolLookup where
  module_kind : ModuleKind
  symbol_map : SymbolMap
  symbol_maps : SymbolMaps
  relocations : Relocations

/-- Inner loop of `SymbolLookup::write_ambiguous_symbols_comment`:
iterate the candidate peer modules with their enumeration index,
skipping peers without a symbol map or without a symbol at the
destination, and prefixing `", "` when the enumeration index is
positive. -/
def writeAmbiguousGo (ctx : SymbolLookup) (destination : Nat) :
    List ModuleKind → Nat → String
  | [], _ => ""
  | ov :: rest, i =>
    match ctx.symbol_maps.get ov with
    | Option.none => writeAmbiguousGo ctx destination rest (i + 1)
    | some external_symbol_map =>
      match external_symbol_map.by_address destination <|>
          external_symbol_map.get_function destination with
      | Option.none => writeAmbiguousGo ctx destination rest (i + 1)
      | some symbol =>
        (if i > 0 then ", " else "") ++ symbol.name ++
          writeAmbiguousGo ctx destination rest (i + 1)

/-- `SymbolLookup::write_ambiguous_symbols_comment` from
`src/config/symbol.rs`, returning the written text. -/
def SymbolLookup.write_ambiguous_symbols_comment (ctx : SymbolLookup)
    (source destination : Nat) : String :=
  match ctx.relocations.get source with
  | Option.none => ""
  | some relocation =>
    match relocation.module.other_modules with
    | Option.none => ""
    | some overlays => " ; " ++ writeAmbiguousGo ctx destination overlays 0

/-- `SymbolLookup::write_symbol` from `src/config/symbol.rs`.  The Rust
method takes a writer and `new_line: &mut bool` and returns
`Result<bool>`; here it returns `(returned bool, final new_line, written
text)`, with `bail!`/`assert!` aborts as `Except.error`.  The
`(destination as i64 - addend) as u32` cast is the explicit `% 2^32`. -/
def SymbolLookup.write_symbol (ctx : SymbolLookup) (source destination : Nat)
    (new_line : Bool) (indent : String) : Except String (Bool × Bool × String) :=
  match ctx.relocations.get source with
  | some relocation =>
    match relocation.module.first_module with
    | some module_kind =>
      let symbol_address := (((destination : Int) - relocation.addend).emod (2 ^ 32)).toNat
      if symbol_address ≠ relocation.to_address then
        .error "assertion failed: symbol_address == relocation.to_address()"
      else
        match ctx.symbol_maps.get module_kind with
        | Option.none => .error "Relocation has no symbol map"
        | some external_symbol_map =>
          match external_symbol_map.by_address symbol_address <|>
              external_symbol_map.get_function symbol_address with
          | Option.none => .error "Symbol not found for relocation"
          | some symbol =>
            let out := (if new_line then "\n" else "") ++ indent ++ ".word " ++
              symbol.name ++
              (if relocation.addend > 0 then "+" ++ hexLiteral relocation.addend.toNat
               else if relocation.addend < 0 then "-" ++ hexLiteral (-relocation.addend).toNat
               else "") ++
              ctx.write_ambiguous_symbols_comment source symbol_address ++ "\n"
            .ok (true, false, out)
    | Option.none => .ok (false, new_line, "")
  | Option.none =>
    match ctx.symbol_map.by_address destination with
    | some symbol =>
      .ok (true, false,
        (if new_line then "\n" else "") ++ indent ++ ".word " ++ symbol.name ++ "\n")
    | Option.none => .ok (false, new_line, "")

/-- `SymbolLookup::lookup_symbol_name` from `src/config/symbol.rs` (the
`LookupSymbol` trait implementation).  The outer `Option` models the
`unwrap()` panics on a same-module relocation or a missing peer map:
`Option.none` is an abort, `some r` the returned value. -/
def SymbolLookup.lookup_symbol_name (ctx : SymbolLookup)
    (source destination : Nat) : Option (Option String) :=
  match ctx.symbol_map.by_address destination with
  | some symbol => some (some symbol.name)
  | Option.none =>
    match ctx.relocations.get source with
    | some relocation =>
      match relocation.module.first_module with
      | Option.none => Option.none
      | some module_kind =>
        match ctx.symbol_maps.get module_kind with
        | Option.none => Option.none
        | some external_symbol_map =>
          some ((external_symbol_map.by_address destination).map (fun s => s.name))
    | Option.none => some Option.none

theorem SymData.element_size_pos (d : SymData) : 0 < d.element_size := by
  cases d <;> simp [SymData.element_size]

/-- Inner column loop of `SymData::write_assembly` (one 16-byte row):
at each column, if at least 4 bytes remain and the address is 4-aligned,
try `write_symbol` on the little-endian word (advancing by 4 on
success); otherwise emit a literal — the first literal of a directive
line with the directive prefix, later ones appended with `", "` — and
advance by the element size.  Returns the written text and the final
`data_directive` flag. -/
def writeAssemblyInner (data : SymData) (ctx : SymbolLookup) (symbol : DsSymbol)
    (bytes : List Nat) (offset : Nat) (column : Nat) (data_directive : Bool) :
    Except String (String × Bool) :=
  if h : column < 16 then
    let off := offset + column
    if off ≥ bytes.length then
      .ok ("", data_directive)
    else
      let rest := bytes.drop off
      let address := symbol.addr + off
      match (if rest.length ≥ 4 && address &&& 3 == 0 then
          some (ctx.write_symbol address (u32_from_le_slice rest) data_directive "    ")
        else Option.none) with
      | some (.error e) => .error e
      | some (.ok (true, dd, out)) =>
        match writeAssemblyInner data ctx symbol bytes offset (column + 4) dd with
        | .error e => .error e
        | .ok (tail, ddf) => .ok (out ++ tail, ddf)
      | some (.ok (false, _, _)) =>
        let lit :=
          if !data_directive then
            match data with
            | .any => "    .byte " ++ hexByte (rest.getD 0 0)
            | .byte _ => "    .byte " ++ hexByte (rest.getD 0 0)
            | .short _ => "    .short " ++ hexLiteral (rest.getD 0 0)
            | .word _ => "    .word " ++ hexLiteral (u32_from_le_slice rest)
          else
            match data with
            | .any => ", " ++ hexByte (rest.getD 0 0)
            | .byte _ => ", " ++ hexByte (rest.getD 0 0)
            | .short _ => ", " ++ hexLiteral (u16_from_le_slice rest)
            | .word _ => ", " ++ hexLiteral (u32_from_le_slice rest)
        match writeAssemblyInner data ctx symbol bytes offset
            (column + data.element_size) true with
        | .error e => .error e
        | .ok (tail, ddf) => .ok (lit ++ tail, ddf)
      | Option.none =>
        let lit :=
          if !data_directive then
            match data with
            | .any => "    .byte " ++ hexByte (rest.getD 0 0)
            | .byte _ => "    .byte " ++ hexByte (rest.getD 0 0)
            | .short _ => "    .short " ++ hexLiteral (rest.getD 0 0)
            | .word _ => "    .word " ++ hexLiteral (u32_from_le_slice rest)
          else
            match data with
            | .any => ", " ++ hexByte (rest.getD 0 0)
            | .byte _ => ", " ++ hexByte (rest.getD 0 0)
            | .short _ => ", " ++ hexLiteral (u16_from_le_slice rest)
            | .word _ => ", " ++ hexLiteral (u32_from_le_slice rest)
        match writeAssemblyInner data ctx symbol bytes offset
            (column + data.element_size) true with
        | .error e => .error e
        | .ok (tail, ddf) => .ok (lit ++ tail, ddf)
  else .ok ("", data_directive)
termination_by 16 - column
decreasing_by
  all_goals first
    | omega
    | (have hpos := SymData.element_size_pos data; omega)

/-- Outer row loop of `SymData::write_assembly`: process 16-byte rows,
closing an open data-directive line with a newline after each row. -/
def writeAssemblyOuter (data : SymData) (ctx : SymbolLookup) (symbol : DsSymbol)
    (bytes : List Nat) (offset : Nat) : Except String String :=
  if h : offset < bytes.length then
    match writeAssemblyInner data ctx symbol bytes offset 0 false with
    | .error e => .error e
    | .ok (text, data_directive) =>
      match writeAssemblyOuter data ctx symbol bytes (offset + 16) with
      | .error e => .error e
      | .ok rest => .ok ((if data_directive then text ++ "\n" else text) ++ rest)
  else .ok ""
termination_by bytes.length - offset
decreasing_by omega

/-- `SymData::write_assembly` from `src/config/symbol.rs`: check the
declared size against the available bytes, then emit the data rows. -/
def SymData.write_assembly (data : SymData) (symbol : DsSymbol) (bytes : List Nat)
    (symbols : SymbolLookup) : Except String String :=
  match data.size with
  | some size =>
    if bytes.length < size then
      .error "Not enough bytes to write raw data directive"
    else
      writeAssemblyOuter data symbols symbol bytes 0
  | Option.none => writeAssemblyOuter data symbols symbol bytes 0

-- ## C1: write_symbol with a same-module relocation

/-- Local symbol at address 200 used by the C1 counterexample. -/
def c1LocalSymbol : DsSymbol :=
  { name := "foo", addr := 200, kind := .data .any, ambiguous := false }

/-- Relocation at source 100 whose target-module descriptor has no first
module (a pure same-module reference). -/
def c1Relocation : Relocation :=
  { to_address := 200, addend := 0, module := .none }

/-- Lookup state for C1: a relocation with `first_module() = None` at
source 100, and a local symbol at the destination 200. -/
def c1Lookup : SymbolLookup :=
  { module_kind := .arm9, symbol_map := [c1LocalSymbol], symbol_maps := [],
    relocations := [(100, c1Relocation)] }

/-- Counterexample for C1: with a registered relocation whose
`first_module()` is `None` and a local symbol at the exact destination,
`write_symbol` returns false and writes nothing — it does not fall
through to the local symbol map and does not emit `.word foo`. -/
theorem write_symbol_none_module_counterexample :
    c1Lookup.relocations.get 100 = some c1Relocation ∧
    c1Relocation.module.first_module = Option.none ∧
    c1Lookup.symbol_map.by_address 200 = some c1LocalSymbol ∧
    c1Lookup.write_symbol 100 200 false "    " = .ok (false, false, "") ∧
    c1Lookup.write_symbol 100 200 false "    " ≠
      .ok (true, false, "    .word foo\n") := by
  refine ⟨rfl, rfl, by decide, rfl, by decide⟩

/-- C1 (amended): when a relocation is registered at the source and its
target-module descriptor's `first_module()` is `None`, `write_symbol`
returns false and writes nothing, regardless of the local symbol map;
the local map is consulted (emitting `.word NAME` on an exact hit) only
when no relocation is registered at the source. -/
theorem write_symbol_none_module (ctx : SymbolLookup) (source destination : Nat)
    (new_line : Bool) (indent : String) :
    (∀ r, ctx.relocations.get source = some r →
      r.module.first_module = Option.none →
      ctx.write_symbol source destination new_line indent =
        .ok (false, new_line, "")) ∧
    (ctx.relocations.get source = Option.none →
      ∀ symbol, ctx.symbol_map.by_address destination = some symbol →
        ctx.write_symbol source destination new_line indent =
          .ok (true, false,
            (if new_line then "\n" else "") ++ indent ++ ".word " ++
              symbol.name ++ "\n")) := by
  constructor
  · intro r hr hm
    simp only [SymbolLookup.write_symbol, hr, hm]
  · intro hr symbol hsym
    simp only [SymbolLookup.write_symbol, hr, hsym]

/-- Witness for C1: the amended behaviour at the concrete C1 state. -/
theorem write_symbol_none_module_witness :
    c1Lookup.write_symbol 100 200 false "    " = .ok (false, false, "") :=
  (write_symbol_none_module c1Lookup 100 200 false "    ").1
    c1Relocation rfl rfl

-- ## C2: lookup_symbol_name versus write_symbol

/-- Local symbol at address 200 used by the C2 counterexample. -/
def c2LocalSymbol : DsSymbol :=
  { name := "loc", addr := 200, kind := .data .any, ambiguous := false }

/-- External symbol at address 200 in overlay 5. -/
def c2ExternalSymbol : DsSymbol :=
  { name := "ext", addr := 200, kind := .function .arm 4 false, ambiguous := false }

/-- Relocation at source 100 targeting overlay 5 at address 200. -/
def c2Relocation : Relocation :=
  { to_address := 200, addend := 0, module := .single (.overlay 5) }

/-- Lookup state for C2: both the local map and overlay 5's map define a
symbol at the destination 200, and a relocation at source 100 targets
overlay 5. -/
def c2Lookup : SymbolLookup :=
  { module_kind := .arm9, symbol_map := [c2LocalSymbol],
    symbol_maps := [(.overlay 5, [c2ExternalSymbol])],
    relocations := [(100, c2Relocation)] }

/-- Counterexample for C2: at the same state and the same
(source, destination) pair, `write_symbol` emits `.word ext` (resolving
through the relocation) while `lookup_symbol_name` returns `loc`
(preferring the local map) — the two resolvers disagree. -/
theorem lookup_symbol_name_diverges :
    c2Lookup.lookup_symbol_name 100 200 = some (some "loc") ∧
    c2Lookup.write_symbol 100 200 false "    " =
      .ok (true, false, "    .word ext\n") ∧
    ("loc" : String) ≠ "ext" := by
  refine ⟨rfl, rfl, by decide⟩

/-- C2 (amended): the two resolvers agree only for sources with no
registered relocation: there both consult the local symbol map by exact
destination address, `lookup_symbol_name` returning exactly the bare
name that `write_symbol` emits in its `.word NAME` directive, and both
reporting failure on a local miss.  (When a relocation is registered
they differ, as the counterexample shows: `write_symbol` resolves
through the relocation's first module at `destination - addend` with a
containing-function fallback, while `lookup_symbol_name` prefers the
local map and then looks up the raw destination without fallback.) -/
theorem lookup_symbol_name_agrees_without_relocation (ctx : SymbolLookup)
    (source destination : Nat) (new_line : Bool) (indent : String)
    (hrel : ctx.relocations.get source = Option.none) :
    (∀ symbol, ctx.symbol_map.by_address destination = some symbol →
      ctx.lookup_symbol_name source destination = some (some symbol.name) ∧
      ctx.write_symbol source destination new_line indent =
        .ok (true, false,
          (if new_line then "\n" else "") ++ indent ++ ".word " ++
            symbol.name ++ "\n")) ∧
    (ctx.symbol_map.by_address destination = Option.none →
      ctx.lookup_symbol_name source destination = some Option.none ∧
      ctx.write_symbol source destination new_line indent =
        .ok (false, new_line, "")) := by
  constructor
  · intro symbol hsym
    constructor
    · simp only [SymbolLookup.lookup_symbol_name, hsym]
    · simp only [SymbolLookup.write_symbol, hrel, hsym]
  · intro hsym
    constructor
    · simp only [SymbolLookup.lookup_symbol_name, hsym, hrel]
    · simp only [SymbolLookup.write_symbol, hrel, hsym]

/-- Lookup state with no relocations and one local symbol, for the C2
witness. -/
def c2AgreeLookup : SymbolLookup :=
  { module_kind := .arm9, symbol_map := [c2LocalSymbol], symbol_maps := [],
    relocations := [] }

/-- Witness for C2: with no relocation registered, both resolvers return
the local symbol `loc`. -/
theorem lookup_symbol_name_agrees_without_relocation_witness :
    c2AgreeLookup.lookup_symbol_name 100 200 = some (some "loc") ∧
    c2AgreeLookup.write_symbol 100 200 false "    " =
      .ok (true, false,
        (if false then "\n" else "") ++ "    " ++ ".word " ++ "loc" ++ "\n") :=
  (lookup_symbol_name_agrees_without_relocation c2AgreeLookup 100 200 false "    "
    rfl).1 c2LocalSymbol rfl

-- ## C3: SymData::write_assembly literal emission

/-- A `Short` data symbol whose two bytes are dumped as literals. -/
def c3Symbol : DsSymbol :=
  { name := "shorts", addr := 0x02000000, kind := .data (.short (some 2)),
    ambiguous := false }

/-- An empty lookup state: no relocations and no symbols, so every
symbol-resolution attempt fails and all data is emitted as literals. -/
def c3Lookup : SymbolLookup :=
  { module_kind := .arm9, symbol_map := [], symbol_maps := [], relocations := [] }

set_option maxHeartbeats 2000000 in
/-- C3 (code evaluated at the failing input): for the `Short` data
symbol over bytes `[0x34, 0x12]`, `write_assembly` emits
`.short 0x34` — the first literal of the directive line is formatted
from `bytes[0]` alone (`0x34`) instead of the little-endian 16-bit value
`0x1234` of the two bytes at that offset, contradicting the claim. -/
theorem write_assembly_short_first_literal :
    SymData.write_assembly (SymData.short (some 2)) c3Symbol [0x34, 0x12] c3Lookup =
      .ok "    .short 0x34\n" ∧
    u16_from_le_slice [0x34, 0x12] = 0x1234 ∧
    hexLiteral 0x1234 = "0x1234" ∧
    ("    .short 0x34\n" : String) ≠ "    .short 0x1234\n" := by
  refine ⟨?_, by decide, by decide, by decide⟩
  simp [SymData.write_assembly, SymData.size, writeAssemblyOuter, writeAssemblyInner,
    SymData.element_size, c3Symbol, c3Lookup, hexLiteral, hexDigitsOf]
  decide

-- ## C7: Section::parse_inherit

/-- Errors of `Section::parse` (`enum SectionParseError`; the
`ParseContext` carried for diagnostics is omitted, and the underlying
integer-parse errors are represented by the offending value). -/
inductive SectionParseError where
  | parseStartAddress (value : String)
  | parseEndAddress (value : String)
  | parseAlignment (value : String)
  | unknownAttribute (key : String)
  | missingAttribute (attr : String)
  | sectionErr (error : SectionError)
deriving DecidableEq

/-- Errors of `Section::parse_inherit` (`enum SectionInheritParseError`,
with the transparent `SectionParse` variant wrapping
`SectionParseError`). -/
inductive SectionInheritParseError where
  | notInHeader (name : String)
  | inheritedAttribute (attr : String)
  | sectionParse (source : SectionParseError)
deriving DecidableEq

/-- Rust `str::split_whitespace`: maximal nonempty runs of
non-whitespace characters. -/
def splitWhitespaceAux : List Char → List Char → List String → List String
  | [], [], acc => acc.reverse
  | [], cur, acc => (String.mk cur.reverse :: acc).reverse
  | c :: cs, cur, acc =>
    if c.isWhitespace then
      match cur with
      | [] => splitWhitespaceAux cs [] acc
      | _ => splitWhitespaceAux cs [] (String.mk cur.reverse :: acc)
    else
      splitWhitespaceAux cs (c :: cur) acc

/-- Rust `str::split_whitespace` over a whole string. -/
def splitWhitespace (s : String) : List String :=
  splitWhitespaceAux s.data [] []

/-- Split a word at its first `:`;  helper for `iter_attributes`. -/
def splitFirstColonAux : List Char → List Char → String × String
  | [], acc => (String.mk acc.reverse, "")
  | c :: cs, acc =>
    if c = ':' then (String.mk acc.reverse, String.mk cs)
    else splitFirstColonAux cs (c :: acc)

/-- Modelled from the spec: `iter_attributes` (in the config lib's
`config/mod.rs`, not under `src/`) yields `(key, value)` pairs from
whitespace-separated `key:value` words; each word is split at its first
colon. -/
def attrOfWord (w : String) : String × String :=
  splitFirstColonAux w.data []

/-- Decimal digit value of a character (codes 48-57). -/
def decDigitVal (c : Char) : Option Nat :=
  let n := c.toNat
  if 48 ≤ n && n ≤ 57 then some (n - 48) else Option.none

/-- Hexadecimal digit value of a character: `0`-`9` are codes 48-57,
`a`-`f` codes 97-102, `A`-`F` codes 65-70. -/
def hexDigitVal (c : Char) : Option Nat :=
  let n := c.toNat
  if 48 ≤ n && n ≤ 57 then some (n - 48)
  else if 97 ≤ n && n ≤ 102 then some (n - 87)
  else if 65 ≤ n && n ≤ 70 then some (n - 55)
  else Option.none

/-- Accumulate digits in the given base, failing on a non-digit. -/
def digitsToNatAux (base : Nat) (digitVal : Char → Option Nat) :
    List Char → Nat → Option Nat
  | [], acc => some acc
  | c :: cs, acc =>
    match digitVal c with
    | some d => digitsToNatAux base digitVal cs (acc * base + d)
    | Option.none => Option.none

/-- Modelled from the spec: `parse_u32` (`util/parse.rs` of the config
lib, not under `src/`) — parses `0x`-prefixed hexadecimal or plain
decimal, rejecting empty digit strings and values outside `u32`. -/
def parse_u32 (s : String) : Option Nat :=
  let core :=
    match s.data with
    | '0' :: 'x' :: rest =>
      if rest.isEmpty then Option.none else digitsToNatAux 16 hexDigitVal rest 0
    | cs => if cs.isEmpty then Option.none else digitsToNatAux 10 decDigitVal cs 0
  match core with
  | some n => if n < 2 ^ 32 then some n else Option.none
  | Option.none => Option.none

/-- Attribute loop of `Section::parse_inherit`: `kind` and `align` fail
with `InheritedAttribute`, `start`/`end` are parsed with `parse_u32`,
anything else fails with `UnknownAttribute` (keys matched in the Rust
`match` order). -/
def parseInheritAttrs : List String → Option Nat → Option Nat →
    Except SectionInheritParseError (Option Nat × Option Nat)
  | [], start0, end0 => .ok (start0, end0)
  | w :: rest, start0, end0 =>
    let (key, value) := attrOfWord w
    if key = "kind" then .error (.inheritedAttribute "kind")
    else if key = "start" then
      match parse_u32 value with
      | some v => parseInheritAttrs rest (some v) end0
      | Option.none => .error (.sectionParse (.parseStartAddress value))
    else if key = "end" then
      match parse_u32 value with
      | some v => parseInheritAttrs rest start0 (some v)
      | Option.none => .error (.sectionParse (.parseEndAddress value))
    else if key = "align" then .error (.inheritedAttribute "align")
    else .error (.sectionParse (.unknownAttribute key))

/-- `Section::parse_inherit` from `lib/src/config/section.rs`: resolve
the leading name in the enclosing module's section table (`NotInHeader`
on a miss), collect `start`/`end` from the remaining attributes, then
build the section via `Section::inherit`. -/
def Section.parse_inherit (line : String) (sections : Sections) :
    Except SectionInheritParseError (Option Section) :=
  match splitWhitespace line with
  | [] => .ok Option.none
  | name :: words =>
    match sections.by_name name with
    | Option.none => .error (.notInHeader name)
    | some (_, inherit_section) =>
      match parseInheritAttrs words Option.none Option.none with
      | .error e => .error e
      | .ok (astart, aend) =>
        match astart with
        | Option.none => .error (.sectionParse (.missingAttribute "start"))
        | some start_address =>
          match aend with
          | Option.none => .error (.sectionParse (.missingAttribute "end"))
          | some end_address =>
            match Section.inherit inherit_section start_address end_address with
            | .error e => .error (.sectionParse (.sectionErr e))
            | .ok s => .ok (some s)

/-- The header section `.text kind:code start:0x0 end:0x100 align:0x4`
of the spec's inherit example. -/
def textHeaderSection : Section :=
  { name := ".text", kind := .code, start_address := 0x0, end_address := 0x100,
    alignment := 4 }

/-- The enclosing module's section table holding the header section. -/
def inheritHeader : Sections :=
  (Sections.new.add textHeaderSection).2

/-- C7: `Section::parse_inherit` accepts only `start` and `end`: a
`kind` or `align` attribute fails with `InheritedAttribute`, a name
absent from the enclosing module's section table fails with
`NotInHeader`, and on success the section clones name, kind and
alignment from the header section while taking `start` and `end` from
the line (header `.text kind:code start:0x0 end:0x100 align:0x4` with
line `.text start:0x10 end:0x20` yields name `.text`, kind code,
alignment 4, start 0x10, end 0x20). -/
theorem section_parse_inherit (ss : Sections) :
    (∀ i sec, ss.by_name ".text" = some (i, sec) →
      Section.parse_inherit ".text kind:code start:0x10 end:0x20" ss =
        .error (.inheritedAttribute "kind") ∧
      Section.parse_inherit ".text start:0x10 end:0x20 align:0x4" ss =
        .error (.inheritedAttribute "align")) ∧
    (ss.by_name ".missing" = Option.none →
      Section.parse_inherit ".missing start:0x10 end:0x20" ss =
        .error (.notInHeader ".missing")) ∧
    Section.parse_inherit ".text start:0x10 end:0x20" inheritHeader =
      .ok (some ⟨".text", .code, 0x10, 0x20, 4⟩) := by
  refine ⟨?_, ?_, by decide⟩
  · intro i sec h
    constructor
    · rw [Section.parse_inherit,
        show splitWhitespace ".text kind:code start:0x10 end:0x20" =
          [".text", "kind:code", "start:0x10", "end:0x20"] from by decide]
      simp only [h]
      rw [show parseInheritAttrs ["kind:code", "start:0x10", "end:0x20"]
          Option.none Option.none = .error (.inheritedAttribute "kind") from by decide]
    · rw [Section.parse_inherit,
        show splitWhitespace ".text start:0x10 end:0x20 align:0x4" =
          [".text", "start:0x10", "end:0x20", "align:0x4"] from by decide]
      simp only [h]
      rw [show parseInheritAttrs ["start:0x10", "end:0x20", "align:0x4"]
          Option.none Option.none = .error (.inheritedAttribute "align") from by decide]
  · intro h
    rw [Section.parse_inherit,
      show splitWhitespace ".missing start:0x10 end:0x20" =
        [".missing", "start:0x10", "end:0x20"] from by decide]
    simp only [h]

/-- Witness for C7: the `kind`/`align` rejections at the concrete header
table. -/
theorem section_parse_inherit_witness :
    Section.parse_inherit ".text kind:code start:0x10 end:0x20" inheritHeader =
      .error (.inheritedAttribute "kind") ∧
    Section.parse_inherit ".text start:0x10 end:0x20 align:0x4" inheritHeader =
      .error (.inheritedAttribute "align") :=
  (section_parse_inherit inheritHeader).1 0 textHeaderSection (by decide)
